import Mathlib

/-!
# BridgeFacileV2 — verification of the arbitration-documentation core

Shallow embedding of the law/article viewer of the BridgeFacileV2 front
end: the store rows it queries, the list fetches of `CodeLaws.jsx` and
`RncArticles.jsx`, the document fetch `fetchLaw` and the breadcrumb
transitions `navigateTo` / `navigateBack` of `LawViewer.jsx`, and the tab
container `ArbitragePage.jsx`.  Asynchronous `supabase` queries are
embedded as pure functions of an explicit `Store` value; a query that may
fail is a function into `Except QueryError`, and the component-state
updates performed by a handler become one state-to-state function per
handler, applied to the final settled outcome of its awaited queries.
-/

namespace BridgeFacile

/-- A row of the `code_laws` table as the components read it:
`law_number` is stored as text, `content` is nullable. -/
structure Law where
  law_number : String
  title : String
  page : Nat
  content : Option String
  deriving Repr, DecidableEq

/-- A row of the `rnc_articles` table: `article_number` is stored as text. -/
structure Article where
  article_number : String
  title : String
  page : Nat
  content : Option String
  deriving Repr, DecidableEq

/-- A row of the `cross_references` table: a directed edge from document
`(from_type, from_id)` to document `(to_type, to_id)` with optional context. -/
structure CrossRef where
  from_type : String
  from_id : String
  to_type : String
  to_id : String
  context : Option String
  deriving Repr, DecidableEq

/-- The external relational store the components query: the three tables
consumed by the arbitration pages, each in its stored row order. -/
structure Store where
  code_laws : List Law
  rnc_articles : List Article
  cross_references : List CrossRef
  deriving Repr

/-- A failed store query: `noSingleRow` is the error `.single()` yields when
the filtered selection has no row (or more than one); `storeFailure` stands
for any network/query failure surfaced by the store client. -/
inductive QueryError
  | noSingleRow
  | storeFailure
  deriving Repr, DecidableEq

/-- Accumulator pass over decimal digit code points. -/
def digitsToNat : List Char → Nat → Nat
  | [], acc => acc
  | c :: cs, acc => digitsToNat cs (acc * 10 + (c.toNat - 48))

/-- The integer value PostgreSQL's `::integer` cast would give a numeric
text key (the components only use it on numeric `law_number` text). -/
def natOf (s : String) : Nat :=
  digitsToNat s.data 0

/-- `supabase.from('code_laws').select('*').eq('law_number', number).single()`:
the rows whose `law_number` equals `number`; exactly one row, or an error. -/
def querySingleLaw (store : Store) (number : String) : Except QueryError Law :=
  match store.code_laws.filter (fun l => l.law_number == number) with
  | [l] => .ok l
  | _ => .error .noSingleRow

/-- `supabase.from('cross_references').select('*').eq('from_type', 'code')
.eq('from_id', number)`: the outbound edges of code document `number`,
in store row order. -/
def queryRefsFrom (store : Store) (number : String) : Except QueryError (List CrossRef) :=
  .ok (store.cross_references.filter (fun r => r.from_type == "code" && r.from_id == number))

/-- Modelled from the spec: the external store's ascending sort on a text
column (the `number` ordering key is "sortable numerically though stored
as text", and the spec's design notes call the store-side behaviour a
"lexical sort on a numeric-looking key").  Lexicographic comparison of the
code points of the two texts. -/
def lexLe : List Char → List Char → Bool
  | [], _ => true
  | _ :: _, [] => false
  | a :: as, b :: bs =>
    if a.toNat < b.toNat then true
    else if b.toNat < a.toNat then false
    else lexLe as bs

/-- Text comparison used by the store's default collation model. -/
def textLe (a b : String) : Bool :=
  lexLe a.data b.data

/-- `supabase.from('code_laws').select('*').order('law_number::integer')`
(`fetchLaws` of `CodeLaws.jsx`): all law rows, ordered ascending by the
integer cast of the text key.  The store's sort is embedded as a
deterministic sorted permutation (insertion sort). -/
def queryLawsOrdered (store : Store) : Except QueryError (List Law) :=
  .ok (store.code_laws.insertionSort (fun a b => natOf a.law_number ≤ natOf b.law_number))

/-- `supabase.from('code_laws').select('*').order('law_number')` (the
`fetchLaws` variant of `RncArticles.jsx`): all law rows, ordered ascending
by the text key itself, i.e. by the store's text collation `textLe`. -/
def queryLawsOrderedText (store : Store) : Except QueryError (List Law) :=
  .ok (store.code_laws.insertionSort (fun a b => textLe a.law_number b.law_number = true))

/-- `supabase.from('rnc_articles').select('*').order('article_number')`
(`fetchArticles` of `RncArticles.jsx`): all article rows, ordered ascending
by the text key, i.e. by the store's text collation `textLe`. -/
def queryArticlesOrdered (store : Store) : Except QueryError (List Article) :=
  .ok (store.rnc_articles.insertionSort (fun a b => textLe a.article_number b.article_number = true))

/-- One breadcrumb entry `{ type, id }` of `LawViewer`'s navigation trail. -/
structure BreadcrumbEntry where
  type : String
  id : String
  deriving Repr, DecidableEq

/-- The component state of `LawViewer.jsx`: `law` (the displayed document,
`null` initially), `references` (its outbound edges), the `loading` flag
and the `breadcrumb` trail. -/
structure ViewerState where
  law : Option Law
  references : List CrossRef
  loading : Bool
  breadcrumb : List BreadcrumbEntry
  deriving Repr, DecidableEq

/-- `LawViewer`'s `useState` initial values: no law, no references,
`loading = true`, empty trail. -/
def initViewer : ViewerState :=
  { law := none, references := [], loading := true, breadcrumb := [] }

/-- The body of `fetchLaw` applied to the settled outcomes of its two
queries: on a law-query error the `catch` only logs, so `law` and
`references` keep their previous values; on success `setLaw` runs, then on
a references-query error the `catch` fires with `references` untouched;
the `finally` branch resets `loading` on every path. -/
def fetchLawWith (lawRes : Except QueryError Law)
    (refRes : Except QueryError (List CrossRef)) (s : ViewerState) : ViewerState :=
  let s1 := { s with loading := true }
  match lawRes with
  | .error _ => { s1 with loading := false }
  | .ok lawData =>
    let s2 := { s1 with law := some lawData }
    match refRes with
    | .error _ => { s2 with loading := false }
    | .ok refData => { s2 with references := refData, loading := false }

/-- `fetchLaw(number)` of `LawViewer.jsx` run against the store. -/
def fetchLaw (store : Store) (number : String) (s : ViewerState) : ViewerState :=
  fetchLawWith (querySingleLaw store number) (queryRefsFrom store number) s

/-- The mount effect of `LawViewer.jsx`: with a `lawNumber` prop it runs
`fetchLaw(lawNumber)` and appends `{ type: 'code', id: lawNumber }` to the
breadcrumb trail. -/
def mountViewer (store : Store) (lawNumber : String) (s : ViewerState) : ViewerState :=
  let s1 := fetchLaw store lawNumber s
  { s1 with breadcrumb := s1.breadcrumb ++ [{ type := "code", id := lawNumber }] }

/-- `navigateTo(type, id)` of `LawViewer.jsx`: for type `'code'` it fetches
the law and appends `{ type, id }` to the trail; the `'rnc'` branch is an
empty stub, so any other type leaves the state unchanged. -/
def navigateTo (store : Store) (type id : String) (s : ViewerState) : ViewerState :=
  if type = "code" then
    let s1 := fetchLaw store id s
    { s1 with breadcrumb := s1.breadcrumb ++ [{ type := type, id := id }] }
  else
    s

/-- `navigateBack(index)` of `LawViewer.jsx`: truncate the trail to
`breadcrumb.slice(0, index + 1)` and refetch the entry's document when its
type is `'code'` (the `'rnc'` branch is an empty stub).  The component only
invokes it on indices of the rendered trail; an out-of-range index is
embedded as a no-op. -/
def navigateBack (store : Store) (index : Nat) (s : ViewerState) : ViewerState :=
  match s.breadcrumb[index]? with
  | none => s
  | some item =>
    let s1 := { s with breadcrumb := s.breadcrumb.take (index + 1) }
    if item.type = "code" then fetchLaw store item.id s1 else s1

/-- What `LawViewer.jsx` renders: the loading indicator while `loading`,
the law detail with its reference list when a law is set, and the explicit
`Loi non trouvée` state otherwise. -/
inductive ViewerRender
  | loadingView
  | lawDetail (law : Law) (references : List CrossRef)
  | notFound
  deriving Repr, DecidableEq

/-- The render function of `LawViewer.jsx`'s return block. -/
def renderViewer (s : ViewerState) : ViewerRender :=
  if s.loading then .loadingView
  else
    match s.law with
    | some l => .lawDetail l s.references
    | none => .notFound

/-- The component state of a list view (`CodeLaws` / `RncArticles`):
the fetched rows and the `loading` flag. -/
structure ListState (α : Type) where
  items : List α
  loading : Bool
  deriving Repr, DecidableEq

/-- The `useState` initial values of the list components. -/
def initList {α : Type} : ListState α :=
  { items := [], loading := true }

/-- The shared body of the list fetch handlers applied to the settled
query outcome: on success the rows replace `items`; on error the `catch`
only logs, so `items` keeps its previous value; the `finally` branch resets
`loading` on every path. -/
def fetchListWith {α : Type} (res : Except QueryError (List α)) (s : ListState α) :
    ListState α :=
  let s1 := { s with loading := true }
  match res with
  | .error _ => { s1 with loading := false }
  | .ok data => { s1 with items := data, loading := false }

/-- `fetchLaws` of `CodeLaws.jsx` (orders by `law_number::integer`). -/
def fetchLaws (store : Store) (s : ListState Law) : ListState Law :=
  fetchListWith (queryLawsOrdered store) s

/-- The `fetchLaws` variant of `RncArticles.jsx` (orders by the text key). -/
def fetchLawsText (store : Store) (s : ListState Law) : ListState Law :=
  fetchListWith (queryLawsOrderedText store) s

/-- `fetchArticles` of `RncArticles.jsx` (orders by the text key). -/
def fetchArticles (store : Store) (s : ListState Article) : ListState Article :=
  fetchListWith (queryArticlesOrdered store) s

/-- The component state of `ArbitragePage.jsx`: the active tab and the two
per-tab selections. -/
structure PageState where
  activeTab : String
  selectedLaw : Option String
  selectedArticle : Option String
  deriving Repr, DecidableEq

/-- `ArbitragePage`'s `useState` initial values. -/
def initPage : PageState :=
  { activeTab := "code", selectedLaw := none, selectedArticle := none }

/-- A tab button's `onClick`: `setActiveTab(tab)` and nothing else. -/
def setActiveTab (tab : String) (s : PageState) : PageState :=
  { s with activeTab := tab }

/-- `onSelectLaw` as passed to `CodeLaws`: `setSelectedLaw(n)`. -/
def selectLaw (n : String) (s : PageState) : PageState :=
  { s with selectedLaw := some n }

/-- `LawViewer`'s `onBack` prop: `setSelectedLaw(null)`. -/
def clearLaw (s : PageState) : PageState :=
  { s with selectedLaw := none }

/-- What the `content` div of `ArbitragePage.jsx` shows. -/
inductive PageRender
  | codeList
  | rncList
  | lawViewerFor (lawNumber : String)
  | blank
  deriving Repr, DecidableEq

/-- The conditional rendering of `ArbitragePage.jsx`'s `content` div:
the code list on tab `'code'` with no selected law, the viewer on tab
`'code'` with one, the article list on tab `'rnc'` with no selected
article, and nothing otherwise (the other tabs are unimplemented). -/
def renderPage (s : PageState) : PageRender :=
  if s.activeTab = "code" then
    match s.selectedLaw with
    | none => .codeList
    | some n => .lawViewerFor n
  else if s.activeTab = "rnc" then
    match s.selectedArticle with
    | none => .rncList
    | some _ => .blank
  else
    .blank

/-- The viewer states one browsing session can reach for a given store:
the pre-effect initial state; a mount with a law selected from the fetched
list; following a rendered reference (`navigateTo` is only invoked from
the reference list's `onClick`); and jumping to a rendered breadcrumb
index (`navigateBack` is only invoked on indices of the trail).
Returning to the list (`reset`) discards the component, i.e. restarts
from `initViewer`. -/
inductive Reachable (store : Store) : ViewerState → Prop
  | init : Reachable store initViewer
  | mount (L : Law) (hL : L ∈ store.code_laws) :
      Reachable store (mountViewer store L.law_number initViewer)
  | follow {s : ViewerState} (r : CrossRef) (hr : r ∈ s.references)
      (hs : Reachable store s) : Reachable store (navigateTo store r.to_type r.to_id s)
  | back {s : ViewerState} (index : Nat) (hi : index < s.breadcrumb.length)
      (hs : Reachable store s) : Reachable store (navigateBack store index s)

/-- `fetchLaw`'s body never touches the breadcrumb trail. -/
theorem fetchLawWith_breadcrumb (lr : Except QueryError Law)
    (rr : Except QueryError (List CrossRef)) (s : ViewerState) :
    (fetchLawWith lr rr s).breadcrumb = s.breadcrumb := by
  cases lr <;> cases rr <;> rfl

/-- `fetchLaw` never touches the breadcrumb trail. -/
theorem fetchLaw_breadcrumb (store : Store) (number : String) (s : ViewerState) :
    (fetchLaw store number s).breadcrumb = s.breadcrumb :=
  fetchLawWith_breadcrumb _ _ s

/-- The mount effect appends `{ type: 'code', id: lawNumber }`. -/
theorem mountViewer_breadcrumb (store : Store) (n : String) (s : ViewerState) :
    (mountViewer store n s).breadcrumb = s.breadcrumb ++ [{ type := "code", id := n }] := by
  simp [mountViewer, fetchLaw_breadcrumb]

/-- `navigateTo` on the implemented `'code'` branch appends `{ type, id }`. -/
theorem navigateTo_code_breadcrumb (store : Store) (id : String) (s : ViewerState) :
    (navigateTo store "code" id s).breadcrumb = s.breadcrumb ++ [{ type := "code", id := id }] := by
  simp [navigateTo, fetchLaw_breadcrumb]

/-- `navigateTo` with any type other than `'code'` is the identity. -/
theorem navigateTo_of_ne (store : Store) {type : String} (id : String) (s : ViewerState)
    (h : type ≠ "code") : navigateTo store type id s = s := by
  simp [navigateTo, h]

/-- `navigateBack` on an in-range index truncates the trail to
`slice(0, index + 1)`. -/
theorem navigateBack_breadcrumb (store : Store) (index : Nat) (s : ViewerState)
    (hi : index < s.breadcrumb.length) :
    (navigateBack store index s).breadcrumb = s.breadcrumb.take (index + 1) := by
  rw [navigateBack, List.getElem?_eq_getElem hi]
  by_cases h : (s.breadcrumb[index]).type = "code" <;>
    simp [h, fetchLaw_breadcrumb]

/-- Every breadcrumb entry of a reachable viewer state has type `'code'`:
the mount effect and `navigateTo`'s only appending branch both append a
`'code'` entry, and `navigateBack` only truncates. -/
theorem reachable_all_code {store : Store} {s : ViewerState} (hs : Reachable store s) :
    ∀ e ∈ s.breadcrumb, e.type = "code" := by
  induction hs
  case init =>
      intro e he
      simp [initViewer] at he
  case mount L hL =>
      intro e he
      rw [mountViewer_breadcrumb] at he
      simp [initViewer] at he
      simp [he]
  case follow t r hr hs ih =>
      intro e he
      by_cases h : r.to_type = "code"
      · rw [h, navigateTo_code_breadcrumb] at he
        rcases List.mem_append.mp he with h1 | h1
        · exact ih e h1
        · simp at h1
          simp [h1]
      · rw [navigateTo_of_ne store r.to_id _ h] at he
        exact ih e he
  case back t index hi hs ih =>
      intro e he
      rw [navigateBack_breadcrumb store index _ hi] at he
      exact ih e (List.mem_of_mem_take he)

/-- Behaviour of `fetchLaw` when the law query matches exactly one row:
`.single()` succeeds, `setLaw` stores that row, and `setReferences` stores
the outbound edges of the requested number. -/
theorem fetchLaw_found (store : Store) (id : String) (s : ViewerState) (L : Law)
    (hL : store.code_laws.filter (fun l => l.law_number == id) = [L]) :
    (fetchLaw store id s).law = some L ∧
    (fetchLaw store id s).references =
      store.cross_references.filter (fun r => r.from_type == "code" && r.from_id == id) ∧
    (fetchLaw store id s).loading = false := by
  unfold fetchLaw querySingleLaw queryRefsFrom
  rw [hL]
  exact ⟨rfl, rfl, rfl⟩

/-- Behaviour of `fetchLaw` when no row matches: `.single()` errors, the
`catch` only logs, so `law` and `references` keep their previous values. -/
theorem fetchLaw_missing (store : Store) (id : String) (s : ViewerState)
    (h : store.code_laws.filter (fun l => l.law_number == id) = []) :
    (fetchLaw store id s).law = s.law ∧
    (fetchLaw store id s).references = s.references ∧
    (fetchLaw store id s).loading = false := by
  unfold fetchLaw querySingleLaw queryRefsFrom
  rw [h]
  exact ⟨rfl, rfl, rfl⟩

/-- A store against which every navigation the viewer can trigger
succeeds: each stored law is the unique row of its number, and every
cross-reference into the code hierarchy targets a stored law. -/
def ClosedStore (store : Store) : Prop :=
  (∀ L ∈ store.code_laws,
      store.code_laws.filter (fun l => l.law_number == L.law_number) = [L]) ∧
  (∀ r ∈ store.cross_references, r.to_type = "code" →
      ∃ L ∈ store.code_laws, L.law_number = r.to_id)

/-- The inductive invariant of the viewer over a closed store: displayed
references come from the store's edge table, every trail entry's id is a
stored law number, and the displayed law is identified by the trail's last
entry. -/
def GoodState (store : Store) (s : ViewerState) : Prop :=
  (∀ r ∈ s.references, r ∈ store.cross_references) ∧
  (∀ e ∈ s.breadcrumb, ∃ L ∈ store.code_laws, L.law_number = e.id) ∧
  (∀ L : Law, s.law = some L →
      s.breadcrumb ≠ [] ∧
      s.breadcrumb.getLast? = some { type := "code", id := L.law_number })

/-- Last element of a `slice(0, index + 1)` truncation: the entry at
`index`. -/
theorem getLast?_take_succ {α : Type} (l : List α) (i : Nat) (hi : i < l.length) :
    (l.take (i + 1)).getLast? = l[i]? := by
  have h1 : (l.take (i + 1)).length = i + 1 := by
    simp [List.length_take]
    omega
  rw [List.getLast?_eq_getElem?, h1, List.getElem?_take]
  simp

/-- Law component of `navigateTo` on the `'code'` branch. -/
theorem navigateTo_code_law (store : Store) (id : String) (s : ViewerState) :
    (navigateTo store "code" id s).law = (fetchLaw store id s).law := by
  rw [navigateTo, if_pos rfl]

/-- References component of `navigateTo` on the `'code'` branch. -/
theorem navigateTo_code_references (store : Store) (id : String) (s : ViewerState) :
    (navigateTo store "code" id s).references = (fetchLaw store id s).references := by
  rw [navigateTo, if_pos rfl]

/-- Unfolding of `navigateBack` on an in-range `'code'` entry. -/
theorem navigateBack_code_eq (store : Store) (index : Nat) (s : ViewerState)
    (hi : index < s.breadcrumb.length) (htype : (s.breadcrumb[index]).type = "code") :
    navigateBack store index s =
      fetchLaw store (s.breadcrumb[index]).id
        { s with breadcrumb := s.breadcrumb.take (index + 1) } := by
  rw [navigateBack, List.getElem?_eq_getElem hi]
  simp [htype]

/-- Over a closed store, every reachable viewer state satisfies the
inductive invariant `GoodState`. -/
theorem reachable_good {store : Store} {s : ViewerState} (hc : ClosedStore store)
    (hs : Reachable store s) : GoodState store s := by
  induction hs
  case init =>
      refine ⟨?_, ?_, ?_⟩ <;> intro x hx <;> simp [initViewer] at hx
  case mount L hL =>
      have hf := fetchLaw_found store L.law_number initViewer L (hc.1 L hL)
      refine ⟨?_, ?_, ?_⟩
      · intro r hr
        have hrefs : (mountViewer store L.law_number initViewer).references =
            (fetchLaw store L.law_number initViewer).references := rfl
        rw [hrefs, hf.2.1] at hr
        exact List.mem_of_mem_filter hr
      · intro e he
        rw [mountViewer_breadcrumb] at he
        simp [initViewer] at he
        exact ⟨L, hL, by rw [he]⟩
      · intro L' hL'
        have hlaw : (mountViewer store L.law_number initViewer).law =
            (fetchLaw store L.law_number initViewer).law := rfl
        rw [hlaw, hf.1] at hL'
        obtain rfl : L = L' := Option.some.inj hL'
        rw [mountViewer_breadcrumb]
        simp [initViewer]
  case follow t r hr hs ih =>
      by_cases h : r.to_type = "code"
      · obtain ⟨T, hT, hTid⟩ := hc.2 r (ih.1 r hr) h
        have hfilter := hc.1 T hT
        rw [hTid] at hfilter
        rw [h]
        have hf := fetchLaw_found store r.to_id t T hfilter
        refine ⟨?_, ?_, ?_⟩
        · intro x hx
          rw [navigateTo_code_references, hf.2.1] at hx
          exact List.mem_of_mem_filter hx
        · intro e he
          rw [navigateTo_code_breadcrumb] at he
          rcases List.mem_append.mp he with h1 | h1
          · exact ih.2.1 e h1
          · simp at h1
            exact ⟨T, hT, by rw [h1, hTid]⟩
        · intro L' hL'
          rw [navigateTo_code_law, hf.1] at hL'
          obtain rfl : T = L' := Option.some.inj hL'
          rw [navigateTo_code_breadcrumb]
          constructor
          · simp
          · rw [List.getLast?_concat, hTid]
      · rw [navigateTo_of_ne store r.to_id t h]
        exact ih
  case back t index hi hs ih =>
      have hmem : t.breadcrumb[index] ∈ t.breadcrumb := List.getElem_mem hi
      obtain ⟨T, hT, hTid⟩ := ih.2.1 _ hmem
      have htype : (t.breadcrumb[index]).type = "code" := reachable_all_code hs _ hmem
      have hfilter := hc.1 T hT
      rw [hTid] at hfilter
      have hnb := navigateBack_code_eq store index t hi htype
      have hf := fetchLaw_found store (t.breadcrumb[index]).id
          { t with breadcrumb := t.breadcrumb.take (index + 1) } T hfilter
      refine ⟨?_, ?_, ?_⟩
      · intro x hx
        rw [hnb, hf.2.1] at hx
        exact List.mem_of_mem_filter hx
      · intro e he
        rw [hnb, fetchLaw_breadcrumb] at he
        exact ih.2.1 e (List.mem_of_mem_take he)
      · intro L' hL'
        rw [hnb, hf.1] at hL'
        obtain rfl : T = L' := Option.some.inj hL'
        rw [hnb, fetchLaw_breadcrumb]
        constructor
        · intro hemp
          have hlen := congrArg List.length hemp
          simp only [List.length_take, List.length_nil] at hlen
          omega
        · rw [getLast?_take_succ _ _ hi, List.getElem?_eq_getElem hi, hTid, ← htype]

/-- Concrete law 40 used by the scenario fixtures. -/
def law40 : Law :=
  { law_number := "40", title := "Partnership understandings", page := 52, content := none }

/-- Concrete law 1 used by the scenario fixtures. -/
def law1 : Law :=
  { law_number := "1", title := "The pack", page := 9, content := none }

/-- An edge from code law 40 to a code id (99) with no stored row: a
dangling cross-reference. -/
def ref40to99 : CrossRef :=
  { from_type := "code", from_id := "40", to_type := "code", to_id := "99", context := none }

/-- An edge from code law 40 to code law 1. -/
def ref40to1 : CrossRef :=
  { from_type := "code", from_id := "40", to_type := "code", to_id := "1",
    context := some "see opening lead" }

/-- A store holding law 40 and a dangling reference from it to missing id 99. -/
def store1 : Store :=
  { code_laws := [law40], rnc_articles := [], cross_references := [ref40to99] }

/-- A closed store: laws 40 and 1, one reference from 40 to 1. -/
def storeOK : Store :=
  { code_laws := [law40, law1], rnc_articles := [], cross_references := [ref40to1] }

/-- The viewer of `store1` after mounting on law 40. -/
def viewer40 : ViewerState :=
  mountViewer store1 "40" initViewer

/-- The viewer of `store1` after then following the dangling reference. -/
def viewer40then99 : ViewerState :=
  navigateTo store1 ref40to99.to_type ref40to99.to_id viewer40

/-- Concrete RNC articles whose text numbers collate against numeric order. -/
def art2 : Article :=
  { article_number := "2", title := "Article deux", page := 2, content := none }

/-- Concrete RNC article number 10. -/
def art10 : Article :=
  { article_number := "10", title := "Article dix", page := 10, content := none }

/-- A store holding RNC articles 2 and 10 in insertion order. -/
def storeArt : Store :=
  { code_laws := [], rnc_articles := [art2, art10], cross_references := [] }

/-- The page state with law 40 selected on the code tab: the state
`selectLaw "40" initPage` the container reaches when a law is clicked. -/
def pageCodeLaw40 : PageState :=
  { activeTab := "code", selectedLaw := some "40", selectedArticle := none }

/-- C1 counterexample: invoking `navigateTo` with type `'rnc'` (the type a
cross-reference into the RNC hierarchy carries) does not append to the
trail — the stub branch leaves the state unchanged — so the trail length
does not increase by 1. -/
theorem navigateTo_rnc_no_append_cex :
    navigateTo store1 "rnc" "5" initViewer = initViewer ∧
    (navigateTo store1 "rnc" "5" initViewer).breadcrumb.length ≠
      initViewer.breadcrumb.length + 1 := by
  constructor
  · rfl
  · decide

/-- C1 (amended): for references of type `'code'` — the only type
`navigateTo` implements — following appends exactly `{type, id}`: the new
trail is the old trail with that entry appended, so its length grows by 1,
its last entry is `{type, id}`, and the old entries are preserved
unchanged; a `'rnc'` reference leaves the trail unchanged instead. -/
theorem navigateTo_code_appends (store : Store) (type id : String) (s : ViewerState)
    (h : type = "code") :
    (navigateTo store type id s).breadcrumb =
      s.breadcrumb ++ [{ type := type, id := id }] ∧
    (navigateTo store type id s).breadcrumb.length = s.breadcrumb.length + 1 ∧
    (navigateTo store type id s).breadcrumb.getLast? = some { type := type, id := id } ∧
    (navigateTo store type id s).breadcrumb.take s.breadcrumb.length = s.breadcrumb := by
  subst h
  rw [navigateTo_code_breadcrumb]
  refine ⟨rfl, by simp, List.getLast?_concat _, ?_⟩
  rw [List.take_left]

/-- Witness for the amended C1 at a concrete input. -/
theorem navigateTo_code_appends_witness :
    (navigateTo store1 "code" "40" initViewer).breadcrumb =
      initViewer.breadcrumb ++ [{ type := "code", id := "40" }] ∧
    (navigateTo store1 "code" "40" initViewer).breadcrumb.length =
      initViewer.breadcrumb.length + 1 ∧
    (navigateTo store1 "code" "40" initViewer).breadcrumb.getLast? =
      some { type := "code", id := "40" } ∧
    (navigateTo store1 "code" "40" initViewer).breadcrumb.take
      initViewer.breadcrumb.length = initViewer.breadcrumb :=
  navigateTo_code_appends store1 "code" "40" initViewer rfl

/-- C2: on a trail of length N with `0 <= index < N`, `navigateBack(index)`
truncates the trail to `slice(0, index + 1)`: exactly `index + 1` entries,
and the last one is the entry at position `index` of the old trail — the
entry recorded there when it was appended, since all transitions preserve
earlier entries. -/
theorem navigateBack_roundtrip (store : Store) (s : ViewerState) (index : Nat)
    (hi : index < s.breadcrumb.length) :
    (navigateBack store index s).breadcrumb = s.breadcrumb.take (index + 1) ∧
    (navigateBack store index s).breadcrumb.length = index + 1 ∧
    (navigateBack store index s).breadcrumb.getLast? = s.breadcrumb[index]? := by
  rw [navigateBack_breadcrumb store index s hi]
  refine ⟨rfl, ?_, getLast?_take_succ _ _ hi⟩
  simp only [List.length_take]
  omega

/-- Witness for C2 at a concrete input. -/
theorem navigateBack_roundtrip_witness :
    (navigateBack store1 0 viewer40).breadcrumb = viewer40.breadcrumb.take (0 + 1) ∧
    (navigateBack store1 0 viewer40).breadcrumb.length = 0 + 1 ∧
    (navigateBack store1 0 viewer40).breadcrumb.getLast? = viewer40.breadcrumb[0]? :=
  navigateBack_roundtrip store1 viewer40 0 (by decide)

/-- C3 counterexample: from the reachable state with law 40 selected on
the code tab, switching the active tab to `'rnc'` leaves the selected law
in place (`setActiveTab` touches nothing but `activeTab`), and switching
back to the code tab shows the document viewer for law 40 again, not the
code list. -/
theorem setActiveTab_keeps_selection_cex :
    selectLaw "40" initPage = pageCodeLaw40 ∧
    (setActiveTab "rnc" pageCodeLaw40).selectedLaw = some "40" ∧
    (setActiveTab "rnc" pageCodeLaw40).selectedLaw ≠ none ∧
    renderPage (setActiveTab "code" (setActiveTab "rnc" pageCodeLaw40)) =
      PageRender.lawViewerFor "40" ∧
    PageRender.lawViewerFor "40" ≠ PageRender.codeList := by
  refine ⟨rfl, rfl, ?_, ?_, ?_⟩ <;> decide

/-- C3 (amended): switching the active tab preserves both per-tab
selections unchanged; the newly active tab shows its list view only
because its own selection slot is empty (e.g. switching to `'rnc'` shows
the article list when no article is selected), not because switching
clears anything. -/
theorem setActiveTab_preserves_selection (tab : String) (s : PageState) :
    (setActiveTab tab s).selectedLaw = s.selectedLaw ∧
    (setActiveTab tab s).selectedArticle = s.selectedArticle ∧
    (s.selectedArticle = none → renderPage (setActiveTab "rnc" s) = PageRender.rncList) := by
  refine ⟨rfl, rfl, fun h => ?_⟩
  simp [renderPage, setActiveTab, h]

/-- C4 counterexample: with law 40 already displayed, requesting the
missing id 99 does not render the not-found state: the law query error is
caught, `law` keeps its previous value, and the viewer still shows law 40's
detail. -/
theorem fetchLaw_missing_keeps_previous_cex :
    store1.code_laws.filter (fun l => l.law_number == "99") = [] ∧
    (fetchLaw store1 "99" viewer40).law = some law40 ∧
    renderViewer (fetchLaw store1 "99" viewer40) = ViewerRender.lawDetail law40 [ref40to99] ∧
    renderViewer (fetchLaw store1 "99" viewer40) ≠ ViewerRender.notFound := by
  refine ⟨?_, ?_, ?_, ?_⟩ <;> decide

/-- C4 (amended): requesting a missing document never lets an exception
escape — `fetchLaw` totally returns a state with the loading flag cleared
and `law` unchanged — and the viewer shows the not-found rendering exactly
when no document was displayed before the request (`law = none`, as in the
spec's fresh-request scenario); otherwise the previously displayed
document remains shown. -/
theorem fetchLaw_missing_not_found (store : Store) (id : String) (s : ViewerState)
    (h : store.code_laws.filter (fun l => l.law_number == id) = []) :
    (fetchLaw store id s).loading = false ∧
    (fetchLaw store id s).law = s.law ∧
    (s.law = none → renderViewer (fetchLaw store id s) = ViewerRender.notFound) := by
  have hm := fetchLaw_missing store id s h
  refine ⟨hm.2.2, hm.1, fun hn => ?_⟩
  rw [renderViewer, if_neg (by rw [hm.2.2]; exact Bool.false_ne_true), hm.1, hn]

/-- Witness for the amended C4 at a concrete input. -/
theorem fetchLaw_missing_not_found_witness :
    (fetchLaw store1 "99" initViewer).loading = false ∧
    (fetchLaw store1 "99" initViewer).law = initViewer.law ∧
    (initViewer.law = none →
      renderViewer (fetchLaw store1 "99" initViewer) = ViewerRender.notFound) :=
  fetchLaw_missing_not_found store1 "99" initViewer (by decide)

/-- Unfolding equation of the collation model on two non-empty texts. -/
theorem lexLe_cons (a b : Char) (as bs : List Char) :
    lexLe (a :: as) (b :: bs) =
      if a.toNat < b.toNat then true
      else if b.toNat < a.toNat then false
      else lexLe as bs := rfl

/-- The collation model is total. -/
theorem lexLe_total : ∀ as bs : List Char, lexLe as bs = true ∨ lexLe bs as = true := by
  intro as
  induction as with
  | nil =>
      intro bs
      left
      rfl
  | cons a as ih =>
      intro bs
      cases bs with
      | nil =>
          right
          rfl
      | cons b bs =>
          rw [lexLe_cons, lexLe_cons]
          rcases Nat.lt_trichotomy a.toNat b.toNat with h | h | h
          · left
            rw [if_pos h]
          · rw [if_neg (by omega), if_neg (by omega), if_neg (by omega), if_neg (by omega)]
            exact ih bs
          · right
            rw [if_pos h]

/-- The collation model is transitive. -/
theorem lexLe_trans : ∀ as bs cs : List Char,
    lexLe as bs = true → lexLe bs cs = true → lexLe as cs = true := by
  intro as
  induction as with
  | nil =>
      intro bs cs h1 h2
      rfl
  | cons a as ih =>
      intro bs cs h1 h2
      cases bs with
      | nil => cases h1
      | cons b bs =>
          cases cs with
          | nil => cases h2
          | cons c cs =>
              rw [lexLe_cons] at h1 h2 ⊢
              by_cases hab : a.toNat < b.toNat <;> by_cases hba : b.toNat < a.toNat <;>
                by_cases hbc : b.toNat < c.toNat <;> by_cases hcb : c.toNat < b.toNat <;>
                by_cases hac : a.toNat < c.toNat <;> by_cases hca : c.toNat < a.toNat <;>
                simp [hab, hba, hbc, hcb, hac, hca] at h1 h2 ⊢ <;>
                first
                  | omega
                  | exact ih bs cs h1 h2

/-- C5 counterexample: the RNC list view orders by the raw text key, so a
store holding articles numbered 2 and 10 is returned as 10 before 2 — the
lexicographic collation of the text column, not ascending numeric order. -/
theorem fetchArticles_not_numeric_cex :
    (fetchArticles storeArt initList).items.map (fun a => a.article_number) = ["10", "2"] ∧
    natOf "10" = 10 ∧ natOf "2" = 2 ∧ ¬ natOf "10" ≤ natOf "2" := by
  refine ⟨by decide, by decide, by decide, by decide⟩

/-- C5 (amended): each list view returns the full table (a permutation of
its rows), sorted ascending by the key its query names — the integer cast
of `law_number` for `fetchLaws` of `CodeLaws.jsx`, the raw text collation
for the `RncArticles.jsx` fetches — and re-fetching the unchanged table
yields an identical sequence; ascending numeric order holds only for the
integer-cast query, not for the text-ordered ones. -/
theorem list_views_sorted :
    (∀ (store : Store) (s : ListState Law),
        (fetchLaws store s).items.Perm store.code_laws ∧
        (fetchLaws store s).items.Sorted
          (fun a b => natOf a.law_number ≤ natOf b.law_number)) ∧
    (∀ (store : Store) (s : ListState Article),
        (fetchArticles store s).items.Perm store.rnc_articles ∧
        (fetchArticles store s).items.Sorted
          (fun a b => textLe a.article_number b.article_number = true)) ∧
    (∀ (store : Store) (s : ListState Law),
        (fetchLawsText store s).items.Perm store.code_laws ∧
        (fetchLawsText store s).items.Sorted
          (fun a b => textLe a.law_number b.law_number = true)) ∧
    (∀ (store : Store) (s t : ListState Law),
        (fetchLaws store s).items = (fetchLaws store t).items) ∧
    (∀ (store : Store) (s t : ListState Article),
        (fetchArticles store s).items = (fetchArticles store t).items) := by
  haveI h1 : IsTotal Law (fun a b => natOf a.law_number ≤ natOf b.law_number) :=
    ⟨fun a b => Nat.le_total _ _⟩
  haveI h2 : IsTrans Law (fun a b => natOf a.law_number ≤ natOf b.law_number) :=
    ⟨fun a b c hab hbc => le_trans hab hbc⟩
  haveI h3 : IsTotal Article (fun a b => textLe a.article_number b.article_number = true) :=
    ⟨fun a b => lexLe_total _ _⟩
  haveI h4 : IsTrans Article (fun a b => textLe a.article_number b.article_number = true) :=
    ⟨fun a b c hab hbc => lexLe_trans _ _ _ hab hbc⟩
  haveI h5 : IsTotal Law (fun a b => textLe a.law_number b.law_number = true) :=
    ⟨fun a b => lexLe_total _ _⟩
  haveI h6 : IsTrans Law (fun a b => textLe a.law_number b.law_number = true) :=
    ⟨fun a b c hab hbc => lexLe_trans _ _ _ hab hbc⟩
  refine ⟨fun store s => ⟨List.perm_insertionSort _ _, List.sorted_insertionSort _ _⟩,
    fun store s => ⟨List.perm_insertionSort _ _, List.sorted_insertionSort _ _⟩,
    fun store s => ⟨List.perm_insertionSort _ _, List.sorted_insertionSort _ _⟩,
    fun store s t => rfl, fun store s t => rfl⟩

/-- C6: when exactly one stored law carries the requested number, the
fetch stores that law — its number equals the requested id, and the row
comes from the requested `code` hierarchy's table — together with exactly
the cross-references whose source is `(code, id)`; with zero outbound
edges the stored reference sequence is empty. -/
theorem fetchLaw_returns_requested (store : Store) (id : String) (s : ViewerState) (L : Law)
    (h : store.code_laws.filter (fun l => l.law_number == id) = [L]) :
    (fetchLaw store id s).law = some L ∧ L.law_number = id ∧
    (fetchLaw store id s).references =
      store.cross_references.filter (fun r => r.from_type == "code" && r.from_id == id) ∧
    (store.cross_references.filter (fun r => r.from_type == "code" && r.from_id == id) = [] →
      (fetchLaw store id s).references = []) := by
  have hf := fetchLaw_found store id s L h
  have hmem : L ∈ store.code_laws.filter (fun l => l.law_number == id) := by
    rw [h]
    exact List.mem_singleton_self L
  have hid : L.law_number = id := by
    have hp := List.mem_filter.mp hmem
    simpa using hp.2
  exact ⟨hf.1, hid, hf.2.1, fun he => by rw [hf.2.1, he]⟩

/-- Witness for C6 at a concrete input. -/
theorem fetchLaw_returns_requested_witness :
    (fetchLaw store1 "40" initViewer).law = some law40 ∧ law40.law_number = "40" ∧
    (fetchLaw store1 "40" initViewer).references =
      store1.cross_references.filter (fun r => r.from_type == "code" && r.from_id == "40") ∧
    (store1.cross_references.filter (fun r => r.from_type == "code" && r.from_id == "40") = [] →
      (fetchLaw store1 "40" initViewer).references = []) :=
  fetchLaw_returns_requested store1 "40" initViewer law40 (by decide)

/-- C7 counterexample: following the rendered but dangling reference
40 → 99 appends `{code, 99}` to the trail while the failed fetch leaves
law 40 displayed, so in this reachable state the trail's last entry does
not identify the displayed document. -/
theorem breadcrumb_last_mismatch_cex :
    Reachable store1 viewer40then99 ∧
    viewer40then99.law = some law40 ∧
    law40.law_number = "40" ∧
    viewer40then99.breadcrumb.getLast? = some { type := "code", id := "99" } ∧
    ¬ viewer40then99.breadcrumb.getLast? = some { type := "code", id := law40.law_number } := by
  refine ⟨?_, by decide, by decide, by decide, by decide⟩
  exact Reachable.follow ref40to99 (by decide) (Reachable.mount law40 (by decide))

/-- C7 (amended): over a closed store — every stored law is the unique
row of its number and every code-typed cross-reference targets a stored
law, so that every fetch a transition triggers succeeds — the invariant
holds in every reachable viewer state: once a document is displayed the
trail is non-empty and its last entry identifies that document; with a
dangling reference the failed fetch leaves the previous document displayed
under a newly appended trail entry. -/
theorem viewer_trail_tracks_document {store : Store} {s : ViewerState} {L : Law}
    (hc : ClosedStore store) (hs : Reachable store s) (hL : s.law = some L) :
    s.breadcrumb ≠ [] ∧
    s.breadcrumb.getLast? = some { type := "code", id := L.law_number } :=
  (reachable_good hc hs).2.2 L hL

/-- Witness for the amended C7 at a concrete input. -/
theorem viewer_trail_tracks_document_witness :
    (mountViewer storeOK "40" initViewer).breadcrumb ≠ [] ∧
    (mountViewer storeOK "40" initViewer).breadcrumb.getLast? =
      some { type := "code", id := "40" } :=
  @viewer_trail_tracks_document storeOK (mountViewer storeOK "40" initViewer) law40
    (by unfold ClosedStore; exact ⟨by decide, by decide⟩)
    (Reachable.mount law40 (by decide)) (by decide)

/-- C8: in every reachable viewer state all trail entries have type
`'code'`, and invoking `navigateTo` with type `'rnc'` is a complete no-op:
the returned state — trail, displayed document and reference list — is the
argument state itself, so no `'rnc'` entry can ever enter the trail. -/
theorem trail_code_only_rnc_noop {store : Store} {s : ViewerState} (hs : Reachable store s) :
    (∀ e ∈ s.breadcrumb, e.type = "code") ∧ ∀ id, navigateTo store "rnc" id s = s :=
  ⟨reachable_all_code hs, fun id => navigateTo_of_ne store id s (by decide)⟩

/-- Witness for C8 at a concrete input. -/
theorem trail_code_only_rnc_noop_witness :
    (∀ e ∈ viewer40.breadcrumb, e.type = "code") ∧
    ∀ id, navigateTo store1 "rnc" id viewer40 = viewer40 :=
  trail_code_only_rnc_noop (Reachable.mount law40 (by decide))

/-- Loading component of `fetchLaw`'s body: false on every path. -/
theorem fetchLawWith_loading (lr : Except QueryError Law)
    (rr : Except QueryError (List CrossRef)) (s : ViewerState) :
    (fetchLawWith lr rr s).loading = false := by
  cases lr <;> cases rr <;> rfl

/-- Loading component of the list-fetch body: false on every path. -/
theorem fetchListWith_loading {α : Type} (res : Except QueryError (List α))
    (s : ListState α) : (fetchListWith res s).loading = false := by
  cases res <;> rfl

/-- C9: after every completed fetch — document or list, on success and on
every error — the loading flag is false: the embedded `finally` branch
resets it on all paths, so no loading indicator outlives its fetch. -/
theorem loading_cleared_after_fetch :
    (∀ (lr : Except QueryError Law) (rr : Except QueryError (List CrossRef))
        (s : ViewerState), (fetchLawWith lr rr s).loading = false) ∧
    (∀ (store : Store) (number : String) (s : ViewerState),
        (fetchLaw store number s).loading = false) ∧
    (∀ (α : Type) (res : Except QueryError (List α)) (s : ListState α),
        (fetchListWith res s).loading = false) ∧
    (∀ (store : Store) (s : ListState Law), (fetchLaws store s).loading = false) ∧
    (∀ (store : Store) (s : ListState Law), (fetchLawsText store s).loading = false) ∧
    (∀ (store : Store) (s : ListState Article), (fetchArticles store s).loading = false) :=
  ⟨fetchLawWith_loading,
    fun store number s => fetchLawWith_loading _ _ s,
    fun α res s => fetchListWith_loading res s,
    fun store s => rfl, fun store s => rfl, fun store s => rfl⟩

/-- C10: the two sequential reads of `fetchLaw` are not atomic on error:
a failed document query leaves both the previously displayed document and
its references in state unchanged, and a successful document query
followed by a failed references query stores the new document while the
previous document's references remain in state. -/
theorem fetchLaw_not_atomic_on_error :
    (∀ (e : QueryError) (rr : Except QueryError (List CrossRef)) (s : ViewerState),
        (fetchLawWith (.error e) rr s).law = s.law ∧
        (fetchLawWith (.error e) rr s).references = s.references) ∧
    (∀ (L : Law) (e : QueryError) (s : ViewerState),
        (fetchLawWith (.ok L) (.error e) s).law = some L ∧
        (fetchLawWith (.ok L) (.error e) s).references = s.references) :=
  ⟨fun e rr s => ⟨rfl, rfl⟩, fun L e s => ⟨rfl, rfl⟩⟩

end BridgeFacile
